import Mathlib

/-!
Shallow embedding of the DeepDream image-regularization primitives
(`utils.py`): the normalization-profile registry, the pixel/tensor codec,
value clamping, circular spatial shift, the cascaded Gaussian smoother and
its device placement.  Machine floating point is modelled by exact
rationals (reals where the Gaussian density requires them); tensor shapes
are carried in the types.
-/

namespace DeepDream

/-- Error taxonomy of the spec: unknown registry key, bad batch dimension,
reflect padding wider than a spatial dimension, and a CUDA transfer on a
host without CUDA. -/
inductive Err where
  | UnknownProfile
  | InvalidShape
  | InvalidPad
  | CudaUnavailable
deriving DecidableEq, Repr

/-- NormalizationProfile: per-channel means and standard deviations plus the
resize target, as initialised by `Utils.vgg19_param_init` (utils.py lines
36-44). -/
structure Profile where
  mean : Fin 3 → ℚ
  stdv : Fin 3 → ℚ
  img_size : ℕ

/-- The profile written by `Utils.vgg19_param_init` (utils.py lines 41-44):
means [0.485, 0.456, 0.406], standard deviations [0.229, 0.224, 0.225],
image size 600. -/
def vgg19Profile : Profile :=
  ⟨![0.485, 0.456, 0.406], ![0.229, 0.224, 0.225], 600⟩

/-- The `model_mapping` dictionary of `Utils.__init__` (utils.py line 29):
one registered initializer, keyed "vgg19". -/
def model_mapping (model_name : String) : Option Profile :=
  if model_name = "vgg19" then some vgg19Profile else none

/-- Registry lookup `model_mapping[model_name]()` (utils.py line 31): a
missing key raises, modelled as `Err.UnknownProfile`. -/
def resolve (model_name : String) : Except Err Profile :=
  match model_mapping model_name with
  | some p => Except.ok p
  | none => Except.error Err.UnknownProfile

/-- A 4-D image tensor of layout (batch, channels = 3, height, width). -/
abbrev Tensor4 (B H W : ℕ) (α : Type) := Fin B → Fin 3 → Fin H → Fin W → α

/-- A channel-last pixel image of shape (height, width, 3). -/
abbrev PixelImage (H W : ℕ) := Fin H → Fin W → Fin 3 → ℚ

/-- Modelled from the spec: `T.Normalize(mean, std)` (utils.py line 33)
maps `pixel[c]` to `(pixel[c] - mean[c]) / stdv[c]` channel-first; the
batch-dimension addition demanded by spec §4.2 happens at a call site that
is not part of the repository's `src/`, so the unsqueeze to batch size 1 is
taken from the spec's words. -/
def normalize (u : Profile) {H W : ℕ} (img : PixelImage H W) :
    Tensor4 1 H W ℚ :=
  fun _ c i j => (img i j c - u.mean c) / u.stdv c

/-- `Utils.denormalize` (utils.py lines 124-138): `squeeze(0)` removes the
batch dimension only when it is 1; otherwise the tensor stays 4-D and the
final `numpy().transpose(1, 2, 0)` raises (axes do not match a 4-D array),
modelled as `Err.InvalidShape`.  On batch 1 it returns
`tensor[c] * stdv[c] + mean[c]` reordered to channel-last layout. -/
def denormalize (u : Profile) {B H W : ℕ} (t : Tensor4 B H W ℚ) :
    Except Err (PixelImage H W) :=
  if h : B = 1 then
    Except.ok fun i j c => t ⟨0, by omega⟩ c i j * u.stdv c + u.mean c
  else
    Except.error Err.InvalidShape

/-- `Utils.clip` (utils.py lines 110-122): for each channel `c`,
`torch.clamp(tensor[0, c], -mean[c]/stdv[c], (1 - mean[c])/stdv[c])`,
where `torch.clamp x lo hi = min (max x lo) hi`. -/
def clip (u : Profile) {H W : ℕ} (t : Tensor4 1 H W ℚ) : Tensor4 1 H W ℚ :=
  fun b c i j =>
    min (max (t b c i j) (-(u.mean c) / u.stdv c)) ((1 - u.mean c) / u.stdv c)

/-- Index arithmetic of `torch.roll` with shift `s` along a dimension of
size `n`: output position `i` reads input position `(i - s) mod n`. -/
def shiftIdx {n : ℕ} (i : Fin n) (s : ℤ) : Fin n :=
  ⟨(((i : ℤ) - s) % (n : ℤ)).toNat, by
    have hn : (0 : ℤ) < (n : ℤ) := by exact_mod_cast i.pos
    have h1 : 0 ≤ ((i : ℤ) - s) % (n : ℤ) := Int.emod_nonneg _ (by omega)
    have h2 : ((i : ℤ) - s) % (n : ℤ) < (n : ℤ) := Int.emod_lt_of_pos _ hn
    omega⟩

/-- `torch.roll(tensor, shifts=(h_shift, w_shift), dims=(2, 3))`
(utils.py line 145): a circular roll along the two spatial axes. -/
def roll {B H W : ℕ} {α : Type} (t : Tensor4 B H W α) (h_shift w_shift : ℤ) :
    Tensor4 B H W α :=
  fun b c i j => t b c (shiftIdx i h_shift) (shiftIdx j w_shift)

/-- `Utils.random_circular_spatial_shift` (utils.py lines 140-147): negate
both offsets when undoing, then roll along dims (2, 3).  The
`requires_grad` re-marking does not affect element values. -/
def random_circular_spatial_shift {B H W : ℕ} {α : Type}
    (t : Tensor4 B H W α) (h_shift w_shift : ℤ) (should_undo : Bool) :
    Tensor4 B H W α :=
  let h := if should_undo then -h_shift else h_shift
  let w := if should_undo then -w_shift else w_shift
  roll t h w

/-! Heap model for the frame claims: `tensor[0, channel] = ...` in
`Utils.clip` mutates the stored tensor through its handle, while
`torch.roll` and the codec conversions allocate fresh tensors.  A store is
a list of tensors addressed by position. -/

/-- The all-zero tensor, default value for out-of-range store lookups. -/
def defaultT {H W : ℕ} : Tensor4 1 H W ℚ := fun _ _ _ _ => 0

/-- A store of batch-1 tensors addressed by handle (list position). -/
abbrev Store (H W : ℕ) := List (Tensor4 1 H W ℚ)

/-- `Utils.clip` as a store operation: the slice assignment of utils.py
line 120 overwrites the tensor in place, and line 122 returns the same
object, hence the same handle. -/
def clipOp (u : Profile) {H W : ℕ} (s : Store H W) (n : ℕ) :
    Store H W × ℕ :=
  (s.set n (clip u (s.getD n defaultT)), n)

/-- `Utils.random_circular_spatial_shift` as a store operation:
`torch.roll` (utils.py line 145) allocates a new tensor `rolled`, leaving
the argument untouched, and line 147 returns the new object — a fresh
handle. -/
def shiftOp {H W : ℕ} (s : Store H W) (n : ℕ) (h_shift w_shift : ℤ)
    (should_undo : Bool) : Store H W × ℕ :=
  (s ++ [random_circular_spatial_shift (s.getD n defaultT) h_shift w_shift
    should_undo], s.length)

/-- `T.Normalize` as a store operation: the codec conversion produces a new
tensor (utils.py line 33), modelled as allocating a fresh handle. -/
def normalizeOp (u : Profile) {H W : ℕ} (s : Store H W)
    (img : PixelImage H W) : Store H W × ℕ :=
  (s ++ [normalize u img], s.length)

/-! The cascaded Gaussian smoother (`CascadeGaussianSmoothing`,
utils.py lines 157-211), over the reals since the kernels use the Gaussian
density. -/

/-- One factor of the separable Gaussian kernel (utils.py line 184):
`1 / (std * sqrt(2π)) * exp(-((i - mean) / std)² / 2)` with
`mean = (kernel_size - 1) / 2` on the integer grid `0, …, kernel_size-1`. -/
noncomputable def gauss1d (K : ℕ) (σ : ℝ) (i : Fin K) : ℝ :=
  1 / (σ * Real.sqrt (2 * Real.pi)) *
    Real.exp (-(((i : ℝ) - ((K : ℝ) - 1) / 2) / σ) ^ 2 / 2)

/-- The unnormalized 2-D kernel (utils.py lines 180-185): the product of the
two 1-D Gaussian factors (both sigmas of a cascade entry are equal). -/
noncomputable def rawKernel (K : ℕ) (σ : ℝ) : Fin K → Fin K → ℝ :=
  fun i j => gauss1d K σ i * gauss1d K σ j

/-- Total mass `torch.sum(kernel)` (utils.py line 190). -/
noncomputable def kernelSum (K : ℕ) (σ : ℝ) : ℝ :=
  ∑ i : Fin K, ∑ j : Fin K, rawKernel K σ i j

/-- The normalized kernel `kernel / torch.sum(kernel)` (utils.py line 190). -/
noncomputable def normKernel (K : ℕ) (σ : ℝ) : Fin K → Fin K → ℝ :=
  fun i j => rawKernel K σ i j / kernelSum K σ

/-- The cascade multipliers `[0.5, 1.0, 2.0]` (utils.py line 167). -/
def cascade_coefficients : Fin 3 → ℝ := ![0.5, 1.0, 2.0]

/-- The three kernels of the bank: the normalized kernel at standard
deviation `coeff * sigma` for each cascade multiplier (utils.py lines
169, 180-190). -/
noncomputable def bankKernel (K : ℕ) (σ : ℝ) (k : Fin 3) :
    Fin K → Fin K → ℝ :=
  normKernel K (cascade_coefficients k * σ)

/-- Reflect padding `self.pad = int(kernel_size / 2)` (utils.py line 171). -/
def pad (kernel_size : ℕ) : ℕ := kernel_size / 2

/-- A real-valued 4-D image tensor (batch, channels = 3, height, width). -/
abbrev TensorR (B H W : ℕ) := Fin B → Fin 3 → Fin H → Fin W → ℝ

/-- Source index of reflect-mode padding: padded position `i` reads input
position `i - p`, mirrored without edge repetition past either border.
Torch requires `p < H`, which makes the mirrored index in range. -/
def reflIdx (H p : ℕ) (hp : p < H) (i : Fin (H + 2 * p)) : Fin H :=
  if h1 : (i : ℤ) - (p : ℤ) < 0 then
    ⟨(-((i : ℤ) - (p : ℤ))).toNat, by
      have := i.isLt
      omega⟩
  else if h2 : (H : ℤ) ≤ (i : ℤ) - (p : ℤ) then
    ⟨(2 * (H : ℤ) - 2 - ((i : ℤ) - (p : ℤ))).toNat, by
      have := i.isLt
      have : ((i : ℕ) : ℤ) < ((H : ℕ) : ℤ) + 2 * (p : ℤ) := by
        exact_mod_cast i.isLt
      omega⟩
  else
    ⟨((i : ℤ) - (p : ℤ)).toNat, by
      have := i.isLt
      omega⟩

/-- `torch.nn.functional.pad(input, [p, p, p, p], mode='reflect')`
(utils.py line 207). -/
def reflectPad {B H W : ℕ} (p : ℕ) (hpH : p < H) (hpW : p < W)
    (t : TensorR B H W) : TensorR B (H + 2 * p) (W + 2 * p) :=
  fun b c i j => t b c (reflIdx H p hpH i) (reflIdx W p hpW j)

/-- Valid (no-padding) depthwise cross-correlation with a `K × K` kernel,
`groups = 3` (utils.py lines 208-210): every channel is correlated
independently with the same spatial kernel, output size `H - K + 1`. -/
noncomputable def conv2d {B H W : ℕ} (K : ℕ) (ker : Fin K → Fin K → ℝ)
    (t : TensorR B H W) : TensorR B (H + 1 - K) (W + 1 - K) :=
  fun b c i j =>
    ∑ a : Fin K, ∑ d : Fin K,
      ker a d * t b c ⟨i + a, by have := i.isLt; have := a.isLt; omega⟩
        ⟨j + d, by have := j.isLt; have := d.isLt; omega⟩

/-- `CascadeGaussianSmoothing.forward` (utils.py lines 203-211): reflect-pad
by `pad K` on each side, apply the three depthwise convolutions, sum.
Torch rejects reflect padding at least as wide as a spatial dimension,
modelled as `Err.InvalidPad`. -/
noncomputable def forward (K : ℕ) (σ : ℝ) {B H W : ℕ} (t : TensorR B H W) :
    Except Err (TensorR B (H + 2 * pad K + 1 - K) (W + 2 * pad K + 1 - K)) :=
  if h : pad K < H ∧ pad K < W then
    Except.ok fun b c i j =>
      ∑ k : Fin 3,
        conv2d K (bankKernel K σ k) (reflectPad (pad K) h.1 h.2 t) b c i j
  else
    Except.error Err.InvalidPad

/-! Device placement (utils.py lines 13-18 and 187-196). -/

/-- Execution devices. -/
inductive Device where
  | cpu
  | cuda
deriving DecidableEq

/-- Module-level device selection (utils.py lines 13-18): `cuda` when
available, otherwise fall back to `cpu`. -/
def module_device (cuda_available : Bool) : Device :=
  if cuda_available then Device.cuda else Device.cpu

/-- `tensor.to(device)`: moving to `cuda` raises when no CUDA accelerator
is present, modelled as `Err.CudaUnavailable`; moving to `cpu` always
succeeds. -/
def tensorTo {α : Type} (cuda_available : Bool) (d : Device) (x : α) :
    Except Err α :=
  match d with
  | Device.cpu => Except.ok x
  | Device.cuda =>
      if cuda_available then Except.ok x else Except.error Err.CudaUnavailable

/-- `CascadeGaussianSmoothing.__init__` (utils.py lines 164-201): builds the
three normalized kernels and transfers each one with `kernel.to('cuda')`
(line 195), unconditionally targeting the CUDA device. -/
noncomputable def cascadeInit (K : ℕ) (σ : ℝ) (cuda_available : Bool) :
    Except Err (Fin 3 → Fin K → Fin K → ℝ) := do
  let k1 ← tensorTo cuda_available Device.cuda (bankKernel K σ 0)
  let k2 ← tensorTo cuda_available Device.cuda (bankKernel K σ 1)
  let k3 ← tensorTo cuda_available Device.cuda (bankKernel K σ 2)
  return ![k1, k2, k3]

/-! Helper lemmas. -/

/-- Taking `mod n` on the left argument of a subtraction does not change the
result mod `n`. -/
lemma emod_sub_left_emod (a b n : ℤ) : (a % n - b) % n = (a - b) % n := by
  conv_lhs => rw [Int.sub_emod]
  conv_rhs => rw [Int.sub_emod]
  rw [Int.emod_emod_of_dvd _ dvd_rfl]

/-- Rolling an index by `-s` and then by `s` returns to the start. -/
lemma shiftIdx_shiftIdx_neg {n : ℕ} (i : Fin n) (s : ℤ) :
    shiftIdx (shiftIdx i (-s)) s = i := by
  unfold shiftIdx
  apply Fin.ext
  have hn : (0 : ℤ) < (n : ℤ) := by exact_mod_cast i.pos
  have ha : 0 ≤ ((i : ℤ) - -s) % (n : ℤ) := Int.emod_nonneg _ (by omega)
  simp only [Fin.val_mk]
  rw [Int.toNat_of_nonneg ha, sub_neg_eq_add, emod_sub_left_emod,
    add_sub_cancel_right,
    Int.emod_eq_of_lt (by exact_mod_cast Nat.zero_le _)
      (by exact_mod_cast i.isLt)]
  exact Int.toNat_natCast _

/-- Concrete 1-pixel image used by the witnesses. -/
def wImg : PixelImage 1 1 := fun _ _ _ => 1 / 2

/-- Concrete batch-2 tensor used by the witnesses. -/
def wT2 : Tensor4 2 1 1 ℚ := fun _ _ _ _ => 0

/-- Concrete out-of-range batch-1 tensor used by the witnesses. -/
def wT5 : Tensor4 1 1 1 ℚ := fun _ _ _ _ => 5

/-! Claim theorems. -/

/-- C1: for every profile with nonzero standard deviations and every pixel
image, `denormalize (normalize x)` recovers `x` exactly (hence within any
floating-point tolerance). -/
theorem c1_round_trip (u : Profile) {H W : ℕ} (img : PixelImage H W)
    (hσ : ∀ c, u.stdv c ≠ 0) :
    denormalize u (normalize u img) = Except.ok img := by
  unfold denormalize normalize
  rw [dif_pos rfl]
  congr 1
  funext i j c
  rw [div_mul_cancel₀ _ (hσ c)]
  ring

/-- Witness for C1 at the vgg19 profile and a concrete 1×1 image. -/
theorem c1_round_trip_witness :
    (∀ c, vgg19Profile.stdv c ≠ 0) ∧
      denormalize vgg19Profile (normalize vgg19Profile wImg) =
        Except.ok wImg :=
  ⟨by intro c; fin_cases c <;> norm_num [vgg19Profile],
    c1_round_trip vgg19Profile wImg
      (by intro c; fin_cases c <;> norm_num [vgg19Profile])⟩

/-- C2: with positive standard deviations, `clip` bounds every element of
channel `c` by `-mean[c]/stdv[c]` and `(1 - mean[c])/stdv[c]`, and
`denormalize` of the clipped tensor lands in `[0, 1]` exactly. -/
theorem c2_clip_denormalize (u : Profile) {H W : ℕ} (t : Tensor4 1 H W ℚ)
    (hσ : ∀ c, 0 < u.stdv c) :
    (∀ b c i j,
        -(u.mean c) / u.stdv c ≤ clip u t b c i j ∧
          clip u t b c i j ≤ (1 - u.mean c) / u.stdv c) ∧
      (∀ img, denormalize u (clip u t) = Except.ok img →
        ∀ i j c, 0 ≤ img i j c ∧ img i j c ≤ 1) := by
  have hlohi : ∀ c, -(u.mean c) / u.stdv c ≤ (1 - u.mean c) / u.stdv c :=
    fun c => by
      have h := hσ c
      rw [div_le_div_iff₀ h h]
      nlinarith
  have hbounds : ∀ (b : Fin 1) c i j,
      -(u.mean c) / u.stdv c ≤ clip u t b c i j ∧
        clip u t b c i j ≤ (1 - u.mean c) / u.stdv c := by
    intro b c i j
    exact ⟨le_min (le_max_right _ _) (hlohi c), min_le_right _ _⟩
  refine ⟨hbounds, ?_⟩
  intro img himg i j c
  unfold denormalize at himg
  rw [dif_pos rfl] at himg
  have himg' := (Except.ok.inj himg).symm
  subst himg'
  have hb := hbounds ⟨0, Nat.one_pos⟩ c i j
  have hσc := hσ c
  have e1 : -(u.mean c) / u.stdv c * u.stdv c = -(u.mean c) :=
    div_mul_cancel₀ _ (ne_of_gt hσc)
  have e2 : (1 - u.mean c) / u.stdv c * u.stdv c = 1 - u.mean c :=
    div_mul_cancel₀ _ (ne_of_gt hσc)
  constructor
  · show 0 ≤ clip u t ⟨0, Nat.one_pos⟩ c i j * u.stdv c + u.mean c
    nlinarith [mul_le_mul_of_nonneg_right hb.1 (le_of_lt hσc)]
  · show clip u t ⟨0, Nat.one_pos⟩ c i j * u.stdv c + u.mean c ≤ 1
    nlinarith [mul_le_mul_of_nonneg_right hb.2 (le_of_lt hσc)]

/-- Witness for C2 at the vgg19 profile and a concrete 1×1 tensor whose
entry 5 lies outside every channel's bounds. -/
theorem c2_clip_denormalize_witness :
    (∀ c, 0 < vgg19Profile.stdv c) ∧
      ((∀ b c i j,
          -(vgg19Profile.mean c) / vgg19Profile.stdv c ≤
              clip vgg19Profile wT5 b c i j ∧
            clip vgg19Profile wT5 b c i j ≤
              (1 - vgg19Profile.mean c) / vgg19Profile.stdv c) ∧
        (∀ img, denormalize vgg19Profile (clip vgg19Profile wT5) =
            Except.ok img →
          ∀ i j c, 0 ≤ img i j c ∧ img i j c ≤ 1)) :=
  ⟨by intro c; fin_cases c <;> norm_num [vgg19Profile],
    c2_clip_denormalize vgg19Profile wT5
      (by intro c; fin_cases c <;> norm_num [vgg19Profile])⟩

/-- C3: shifting and then unshifting by the same offsets is the identity on
every 4-D tensor, for all integer offsets (wrap-around included). -/
theorem c3_shift_invertible {B H W : ℕ} {α : Type} (t : Tensor4 B H W α)
    (h_shift w_shift : ℤ) :
    random_circular_spatial_shift
        (random_circular_spatial_shift t h_shift w_shift false)
        h_shift w_shift true = t := by
  funext b c i j
  unfold random_circular_spatial_shift roll
  simp only [if_neg, if_pos, Bool.false_eq_true, ite_false, ite_true]
  rw [shiftIdx_shiftIdx_neg, shiftIdx_shiftIdx_neg]

/-- C4: `denormalize` fails with `InvalidShape` exactly when the batch
dimension is not 1; on batch 1 it removes the batch dimension and returns
the channel-last pixel array `tensor[c] * stdv[c] + mean[c]`. -/
theorem c4_denormalize_batch (u : Profile) :
    (∀ (B H W : ℕ) (t : Tensor4 B H W ℚ), B ≠ 1 →
        denormalize u t = Except.error Err.InvalidShape) ∧
      (∀ (H W : ℕ) (t : Tensor4 1 H W ℚ),
        denormalize u t =
          Except.ok fun i j c => t 0 c i j * u.stdv c + u.mean c) := by
  constructor
  · intro B H W t hB
    unfold denormalize
    rw [dif_neg hB]
  · intro H W t
    unfold denormalize
    rw [dif_pos rfl]
    rfl

/-- Witness for C4 at a concrete batch-2 tensor. -/
theorem c4_denormalize_batch_witness :
    (2 : ℕ) ≠ 1 ∧
      denormalize vgg19Profile wT2 = Except.error Err.InvalidShape :=
  ⟨by decide, (c4_denormalize_batch vgg19Profile).1 2 1 1 wT2 (by decide)⟩

/-- C5: for every odd kernel size and positive base sigma, each of the three
kernels of the bank sums to exactly 1 (hence within 1e-6). -/
theorem c5_kernel_normalization (K : ℕ) (σ : ℝ) (hK : Odd K) (hσ : 0 < σ) :
    ∀ k : Fin 3, ∑ i : Fin K, ∑ j : Fin K, bankKernel K σ k i j = 1 := by
  intro k
  have hc : 0 < cascade_coefficients k := by
    fin_cases k <;> norm_num [cascade_coefficients]
  have hσ2 : 0 < cascade_coefficients k * σ := mul_pos hc hσ
  have hpos : ∀ i : Fin K, 0 < gauss1d K (cascade_coefficients k * σ) i := by
    intro i
    unfold gauss1d
    apply mul_pos
    · exact div_pos one_pos
        (mul_pos hσ2 (Real.sqrt_pos.mpr (by positivity)))
    · exact Real.exp_pos _
  have hKpos : 0 < K := hK.pos
  have : Nonempty (Fin K) := ⟨⟨0, hKpos⟩⟩
  have hsum : 0 < kernelSum K (cascade_coefficients k * σ) := by
    unfold kernelSum rawKernel
    apply Finset.sum_pos _ Finset.univ_nonempty
    intro i _
    apply Finset.sum_pos _ Finset.univ_nonempty
    intro j _
    exact mul_pos (hpos i) (hpos j)
  unfold bankKernel normKernel
  simp only [← Finset.sum_div]
  exact div_self (ne_of_gt hsum)

/-- Witness for C5 at kernel size 3 and base sigma 1. -/
theorem c5_kernel_normalization_witness :
    Odd 3 ∧ (0 : ℝ) < 1 ∧
      ∀ k : Fin 3, ∑ i : Fin 3, ∑ j : Fin 3, bankKernel 3 1 k i j = 1 :=
  ⟨⟨1, by norm_num⟩, by norm_num,
    c5_kernel_normalization 3 1 ⟨1, by norm_num⟩ (by norm_num)⟩

/-- Concrete 1×1 real tensor on which the smoother's reflect padding is
rejected. -/
def oneByOneR : TensorR 1 1 1 := fun _ _ _ _ => 0

/-- C6 counterexample: at kernel size 3 the padding width is 1, so a 1×1
input is rejected by reflect padding rather than smoothed to its own
shape. -/
theorem c6_counterexample :
    forward 3 1 oneByOneR = Except.error Err.InvalidPad := by
  unfold forward
  rw [dif_neg]
  intro h
  exact absurd h.1 (by decide)

/-- C6 (amended): for odd kernel size and inputs whose spatial dimensions
exceed the padding width `kernelSize / 2`, the smoother succeeds and its
output spatial dimensions equal the input's. -/
theorem c6_shape_preservation (K : ℕ) (σ : ℝ) {B H W : ℕ}
    (t : TensorR B H W) (hK : Odd K) (hH : pad K < H) (hW : pad K < W) :
    (H + 2 * pad K + 1 - K = H ∧ W + 2 * pad K + 1 - K = W) ∧
      ∃ out, forward K σ t = Except.ok out := by
  obtain ⟨m, rfl⟩ := hK
  constructor
  · constructor <;> (unfold pad; omega)
  · unfold forward
    rw [dif_pos ⟨hH, hW⟩]
    exact ⟨_, rfl⟩

/-- Concrete 2×2 real tensor used by the C6 witness. -/
def wT6 : TensorR 1 2 2 := fun _ _ _ _ => 0

/-- Witness for C6 at kernel size 3 on a 2×2 input. -/
theorem c6_shape_preservation_witness :
    Odd 3 ∧ pad 3 < 2 ∧ pad 3 < 2 ∧
      ((2 + 2 * pad 3 + 1 - 3 = 2 ∧ 2 + 2 * pad 3 + 1 - 3 = 2) ∧
        ∃ out, forward 3 1 wT6 = Except.ok out) :=
  ⟨⟨1, by norm_num⟩, by decide, by decide,
    c6_shape_preservation 3 1 wT6 ⟨1, by norm_num⟩ (by decide) (by decide)⟩

/-- C7: the registry resolves "vgg19" to the profile with means
[0.485, 0.456, 0.406], standard deviations [0.229, 0.224, 0.225] and
target size 600, and fails with `UnknownProfile` on "unknown_model". -/
theorem c7_registry :
    resolve "vgg19" = Except.ok vgg19Profile ∧
      vgg19Profile.mean = ![0.485, 0.456, 0.406] ∧
      vgg19Profile.stdv = ![0.229, 0.224, 0.225] ∧
      vgg19Profile.img_size = 600 ∧
      resolve "unknown_model" = Except.error Err.UnknownProfile :=
  ⟨rfl, rfl, rfl, rfl, rfl⟩

/-- Concrete all-ones 1×1 tensor held by the counterexample store. -/
def cOne : Tensor4 1 1 1 ℚ := fun _ _ _ _ => 1

/-- A store holding one tensor at handle 0. -/
def s0 : Store 1 1 := [cOne]

/-- C8 counterexample: the shift operation does not return the handle it was
given — `torch.roll` allocates, so the result handle is fresh and the tensor
at the original handle is unchanged. -/
theorem c8_counterexample :
    (shiftOp s0 0 3 5 false).2 ≠ 0 ∧
      (shiftOp s0 0 3 5 false).1.getD 0 defaultT = cOne :=
  ⟨by decide, rfl⟩

/-- C8 (amended): `clip` mutates the stored tensor in place and returns the
same handle, touching no other slot; `shift` and the codec conversion
allocate a fresh handle, leave every existing slot unchanged, and the fresh
slot holds the rolled tensor. -/
theorem c8_frame (u : Profile) {H W : ℕ} (s : Store H W) (n : ℕ)
    (dy dx : ℤ) (undo : Bool) (img : PixelImage H W) (hn : n < s.length) :
    ((clipOp u s n).2 = n ∧
      (clipOp u s n).1.getD n defaultT = clip u (s.getD n defaultT) ∧
      ∀ m, m ≠ n → (clipOp u s n).1.getD m defaultT = s.getD m defaultT) ∧
    ((shiftOp s n dy dx undo).2 ≠ n ∧
      (shiftOp s n dy dx undo).1.getD (shiftOp s n dy dx undo).2 defaultT =
        random_circular_spatial_shift (s.getD n defaultT) dy dx undo ∧
      ∀ m, m < s.length →
        (shiftOp s n dy dx undo).1.getD m defaultT = s.getD m defaultT) ∧
    ((normalizeOp u s img).2 ≠ n ∧
      ∀ m, m < s.length →
        (normalizeOp u s img).1.getD m defaultT = s.getD m defaultT) := by
  refine ⟨⟨rfl, ?_, ?_⟩, ⟨?_, ?_, ?_⟩, ⟨?_, ?_⟩⟩
  · simp [clipOp, List.getD_eq_getElem?_getD, List.getElem?_set_self, hn]
  · intro m hm
    show (s.set n _).getD m defaultT = s.getD m defaultT
    rw [List.getD_eq_getElem?_getD, List.getElem?_set_ne (Ne.symm hm),
      ← List.getD_eq_getElem?_getD]
  · show s.length ≠ n
    omega
  · show (s ++ [_]).getD s.length defaultT = _
    simp [List.getD_eq_getElem?_getD, List.getElem?_concat_length]
  · intro m hm
    show (s ++ [_]).getD m defaultT = s.getD m defaultT
    simp [List.getD_eq_getElem?_getD, List.getElem?_append, hm]
  · show s.length ≠ n
    omega
  · intro m hm
    show (s ++ [_]).getD m defaultT = s.getD m defaultT
    simp [List.getD_eq_getElem?_getD, List.getElem?_append, hm]

/-- Witness for C8 on the one-tensor store. -/
theorem c8_frame_witness :
    (0 : ℕ) < s0.length ∧
      (((clipOp vgg19Profile s0 0).2 = 0 ∧
        (clipOp vgg19Profile s0 0).1.getD 0 defaultT =
          clip vgg19Profile (s0.getD 0 defaultT) ∧
        ∀ m, m ≠ 0 →
          (clipOp vgg19Profile s0 0).1.getD m defaultT =
            s0.getD m defaultT) ∧
      ((shiftOp s0 0 3 5 false).2 ≠ 0 ∧
        (shiftOp s0 0 3 5 false).1.getD (shiftOp s0 0 3 5 false).2
            defaultT =
          random_circular_spatial_shift (s0.getD 0 defaultT) 3 5 false ∧
        ∀ m, m < s0.length →
          (shiftOp s0 0 3 5 false).1.getD m defaultT = s0.getD m defaultT) ∧
      ((normalizeOp vgg19Profile s0 wImg).2 ≠ 0 ∧
        ∀ m, m < s0.length →
          (normalizeOp vgg19Profile s0 wImg).1.getD m defaultT =
            s0.getD m defaultT)) :=
  ⟨by decide, c8_frame vgg19Profile s0 0 3 5 false wImg (by decide)⟩

/-- C10: constructing the smoother on a host without CUDA fails at the
unconditional `kernel.to('cuda')`, for every kernel size and sigma, even
though the module-level device selection falls back to the CPU. -/
theorem c10_cuda_required (K : ℕ) (σ : ℝ) :
    cascadeInit K σ false = Except.error Err.CudaUnavailable ∧
      module_device false = Device.cpu ∧
      ∀ x : ℚ, tensorTo false (module_device false) x = Except.ok x :=
  ⟨rfl, rfl, fun _ => rfl⟩

end DeepDream
